import Mathlib

/- Verification development for the auto_backup_remote system.

   The file gives a shallow embedding, translated from the TypeScript
   sources, of the parts of the system the specification makes testable
   claims about: the adaptive SFTP transfer engine
   (SftpClientService), the hybrid upload strategy resolver
   (HybridUploadService together with LargeFileUploadService), the backup
   job state machine (BackupService.executeBackup), the parallel batch
   orchestrator (BackupController.bulkExecuteBackup), the remote
   filesystem probe (SshCommandService.directoryExists), best-effort
   remote cleanup (CompressionService.deleteRemoteFile), Google Drive
   date-folder creation (GoogleDriveService.createDateFolder) and clean
   filename normalization (FileTransferService.getCleanFileName).

   Asynchronous effects are modelled by explicit environments: every
   remote call a function performs is represented by a field of an
   environment record holding that call's settled outcome
   (Except errMsg value corresponds to a resolved/rejected promise).
   Wall-clock bookkeeping (durations, throughput) and logging are not
   modelled.  Where a function's internal attempt chain matters, the
   embedding additionally returns a ghost trace (list of attempts made);
   the trace is instrumentation only and is never read by the modelled
   code itself. -/

namespace AutoBackup

/-- Error values are carried as plain messages, mirroring the JS
Error.message strings that the services log, store and rethrow. -/
abbrev ErrMsg := String

deriving instance DecidableEq for Except

/-- Semantics of the JS idiom `x || d` applied to an optionally supplied
numeric option: both undefined (here none) and the falsy value 0 select
the default. -/
def jsOr (o : Option Nat) (d : Nat) : Nat :=
  match o with
  | none => d
  | some v => if v = 0 then d else v

/-! ## Adaptive transfer engine: SftpClientService (src/unnamed/part_004) -/

/-- Caller-supplied options for SftpClientService.downloadFile and
uploadFile; a TS field left undefined is none. -/
structure TransferOptions where
  concurrency : Option Nat := none
  chunkSize : Option Nat := none
  retryAttempts : Option Nat := none
  retryDelay : Option Nat := none
deriving DecidableEq, Repr

/-- The effective settings a transfer runs with. -/
structure TransferSettings where
  concurrency : Nat
  chunkSize : Nat
  retryAttempts : Nat
  retryDelay : Nat
deriving DecidableEq, Repr

/-- SftpClientService.getOptimizedDownloadSettings.  The TS code computes
fileSizeGB = fileSize / 2^30 in IEEE doubles (two exact power-of-two
divisions) and compares it against 0.1, 1, 5 and 10.  For integer byte
counts below 2^53 the comparisons agree with exact rational arithmetic:
the double nearest 0.1 is 0.100000000000000005551..., and both
0.1 * 2^30 = 107374182.4 and that double times 2^30 have the same floor
107374182, while 1, 5 and 10 are exact.  The conditions below encode
those exact integer thresholds. -/
def tierPair (fileSize : Nat) : Nat × Nat :=
  if 10 * fileSize < 1073741824 then (32, 65536)
  else if fileSize < 1073741824 then (64, 131072)
  else if fileSize < 5 * 1073741824 then (96, 262144)
  else if fileSize < 10 * 1073741824 then (128, 524288)
  else (160, 1048576)

/-- Wrapping of the tier selection with the user-override and retry
defaults, as the tail of getOptimizedDownloadSettings does. -/
def getOptimizedDownloadSettings (fileSize : Nat) (userOptions : TransferOptions) :
    TransferSettings :=
  let p : Nat × Nat := tierPair fileSize
  { concurrency := jsOr userOptions.concurrency p.1
    chunkSize := jsOr userOptions.chunkSize p.2
    retryAttempts := jsOr userOptions.retryAttempts 5
    retryDelay := jsOr userOptions.retryDelay 3000 }

/-- The fixed defaults applied by SftpClientService.uploadFile (lines
213 to 219 of the source): unlike downloads, uploads never consult the
size-tier table; the defaults are concurrency 64 and 32 KB chunks for
every file size. -/
def getUploadSettings (options : TransferOptions) : TransferSettings :=
  { concurrency := jsOr options.concurrency 64
    chunkSize := jsOr options.chunkSize 32768
    retryAttempts := jsOr options.retryAttempts 3
    retryDelay := jsOr options.retryDelay 2000 }

/-- The concurrency/chunk tier table exactly as the specification words
it, reading 100 MB as 100 * 2^20 bytes and 1 GB as 2^30 bytes (the
spec uses binary units throughout: 64 KB = 65536, 1 MB = 1048576). -/
def specTierTable (S : Nat) : Nat × Nat :=
  if S < 100 * 1048576 then (32, 65536)
  else if S < 1073741824 then (64, 131072)
  else if S < 5 * 1073741824 then (96, 262144)
  else if S < 10 * 1073741824 then (128, 524288)
  else (160, 1048576)

/-- The tier table as the code actually implements it: the first boundary
sits at 0.1 GiB, i.e. sizes up to 107374182 bytes (about 102.4 MiB) get
the small tier; the remaining boundaries are 1, 5 and 10 GiB. -/
def specTierTableAmended (S : Nat) : Nat × Nat :=
  if S ≤ 107374182 then (32, 65536)
  else if S < 1073741824 then (64, 131072)
  else if S < 5368709120 then (96, 262144)
  else if S < 10737418240 then (128, 524288)
  else (160, 1048576)

/-! ## Retry loop and downloadFile -/

/-- The attempt-level view of one SFTP download call: the settled outcome
of connect, of the stat of the remote file, and of each full fastGet pass
(indexed by attempt number, starting at 1).  The environment is fixed for
the call, so re-running the whole copy at attempt i observes fastGet i. -/
structure SftpEnv where
  connect : Except ErrMsg Unit
  statSize : Except ErrMsg Nat
  fastGet : Nat → Except ErrMsg Unit

/-- Body of the for-loop of SftpClientService.executeWithRetry,
instrumented: alongside the outcome we return the list of attempt numbers
at which the whole operation was started (each entry is one complete
re-run of the operation, not of a single chunk) and the list of sleeps
performed between attempts.  remaining counts the attempts still allowed
after the current one; on exhaustion the error of the last attempt is the
one rethrown. -/
def retryRun (op : Nat → Except ErrMsg Unit) (delayMs : Nat) :
    Nat → Nat → Except ErrMsg Unit × List Nat × List Nat
  | attempt, 0 => (op attempt, [attempt], [])
  | attempt, remaining + 1 =>
    match op attempt with
    | .ok u => (.ok u, [attempt], [])
    | .error _ =>
      let r := retryRun op delayMs (attempt + 1) remaining
      (r.1, attempt :: r.2.1, delayMs :: r.2.2)

/-- SftpClientService.executeWithRetry: up to maxAttempts full passes over
the operation.  With maxAttempts = 0 the loop body never runs and the
code throws its uninitialized lastError (modelled as the message
"undefined"). -/
def executeWithRetry (op : Nat → Except ErrMsg Unit) (maxAttempts delayMs : Nat) :
    Except ErrMsg Unit × List Nat × List Nat :=
  match maxAttempts with
  | 0 => (.error "undefined", [], [])
  | n + 1 => retryRun op delayMs 1 n

/-- The value SftpClientService.downloadFile resolves with; wall-clock
duration and averageSpeed are not modelled. -/
structure DownloadResult where
  localPath : String
  fileSize : Nat
  success : Bool
  error : Option ErrMsg := none
deriving DecidableEq, Repr

/-- SftpClientService.downloadFile: connect, stat, pick the optimized
settings, then run fastGet under executeWithRetry.  The surrounding
try/catch converts every raised error - a failed connect and a failed
stat included - into a resolved result with success := false and
fileSize 0; no code path rejects. -/
def downloadFile (env : SftpEnv) (localPath : String) (options : TransferOptions) :
    DownloadResult :=
  match env.connect with
  | .error e => { localPath := localPath, fileSize := 0, success := false, error := some e }
  | .ok _ =>
    match env.statSize with
    | .error e => { localPath := localPath, fileSize := 0, success := false, error := some e }
    | .ok fileSize =>
      let s := getOptimizedDownloadSettings fileSize options
      match (executeWithRetry env.fastGet s.retryAttempts s.retryDelay).1 with
      | .error e => { localPath := localPath, fileSize := 0, success := false, error := some e }
      | .ok _ => { localPath := localPath, fileSize := fileSize, success := true }

/-! ### Retry lemmas -/

/-- If the operation fails at every attempt in the window, the loop runs
the full window, sleeps the fixed delay between consecutive attempts, and
ends with the last attempt's error. -/
theorem retryRun_all_fail (op : Nat → Except ErrMsg Unit) (delayMs : Nat) :
    ∀ remaining attempt,
      (∀ i, attempt ≤ i → i ≤ attempt + remaining → ∃ e, op i = .error e) →
      (retryRun op delayMs attempt remaining).1 = op (attempt + remaining) ∧
      (retryRun op delayMs attempt remaining).2.1 =
        List.range' attempt (remaining + 1) ∧
      (retryRun op delayMs attempt remaining).2.2 =
        List.replicate remaining delayMs := by
  intro remaining
  induction remaining with
  | zero =>
    intro attempt _
    simp [retryRun, List.range']
  | succ n ih =>
    intro attempt h
    obtain ⟨e, he⟩ := h attempt (Nat.le_refl _) (Nat.le_add_right _ _)
    have hrest := ih (attempt + 1) (fun i h1 h2 => h i (Nat.le_of_succ_le h1) (by omega))
    simp only [retryRun, he]
    refine ⟨?_, ?_, ?_⟩
    · rw [hrest.1]; congr 1; omega
    · rw [List.range'_succ]
      simp [hrest.2.1]
    · simp [hrest.2.2, List.replicate_succ]

/-- If the operation first succeeds at attempt k inside the window, the
loop stops there with success, having made exactly the attempts from the
start through k, one full pass each. -/
theorem retryRun_first_ok (op : Nat → Except ErrMsg Unit) (delayMs : Nat) :
    ∀ remaining attempt k,
      attempt ≤ k → k ≤ attempt + remaining →
      (∀ i, attempt ≤ i → i < k → ∃ e, op i = .error e) →
      op k = .ok () →
      (retryRun op delayMs attempt remaining).1 = .ok () ∧
      (retryRun op delayMs attempt remaining).2.1 =
        List.range' attempt (k + 1 - attempt) := by
  intro remaining
  induction remaining with
  | zero =>
    intro attempt k h1 h2 _ hk
    have : k = attempt := by omega
    subst this
    simp [retryRun, hk]
  | succ n ih =>
    intro attempt k h1 h2 hfail hk
    rcases Nat.eq_or_lt_of_le h1 with heq | hlt
    · subst heq
      simp [retryRun, hk, List.range']
    · obtain ⟨e, he⟩ := hfail attempt (Nat.le_refl _) hlt
      have hrest := ih (attempt + 1) k hlt (by omega)
        (fun i hi1 hi2 => hfail i (Nat.le_of_succ_le hi1) hi2) hk
      simp only [retryRun, he]
      refine ⟨hrest.1, ?_⟩
      have hk1 : k + 1 - attempt = (k + 1 - (attempt + 1)) + 1 := by omega
      rw [hk1, List.range'_succ]
      simp [hrest.2]

/-- The code tier chain and the corrected table agree everywhere. -/
theorem tierPair_eq_amended (S : Nat) : tierPair S = specTierTableAmended S := by
  simp only [tierPair, specTierTableAmended]
  split_ifs <;> first | rfl | (exfalso; omega)

/-- C1 counterexample: the spec tier table fails on the code at two
concrete inputs.  At S = 100 MB = 104857600 bytes the table demands the
(64, 128 KB) tier but the code (whose first boundary is 0.1 GiB =
107374182.4 bytes) still selects (32, 64 KB); and for uploads the engine
ignores the size tier entirely, so at S = 2 GiB an upload runs with
concurrency 64 and 32 KB chunks instead of the claimed 96 and 256 KB. -/
theorem transfer_tier_counterexample :
    specTierTable 104857600 = (64, 131072) ∧
    (getOptimizedDownloadSettings 104857600 {}).concurrency = 32 ∧
    (getOptimizedDownloadSettings 104857600 {}).concurrency ≠ (specTierTable 104857600).1 ∧
    (getUploadSettings {}).concurrency = 64 ∧
    (getUploadSettings {}).chunkSize = 32768 ∧
    (getUploadSettings {}).concurrency ≠ (specTierTable 2147483648).1 := by
  refine ⟨by decide, by decide, by decide, by decide, by decide, by decide⟩

/-- C1 (amended): for downloads the tier really is a pure function of the
byte size, matching the spec table except that the first boundary is
0.1 GiB (107374182 bytes) rather than 100 MB; S = 2 GiB yields
concurrency 96 with 256 KB chunks; any nonzero caller-supplied override
takes precedence; uploads do not consult the table and always default to
concurrency 64 with 32 KB chunks. -/
theorem transfer_tier_amended (S c k : Nat) (hc : c ≠ 0) (hk : k ≠ 0) :
    ((getOptimizedDownloadSettings S {}).concurrency,
        (getOptimizedDownloadSettings S {}).chunkSize) = specTierTableAmended S ∧
    (getOptimizedDownloadSettings 2147483648 {}).concurrency = 96 ∧
    (getOptimizedDownloadSettings 2147483648 {}).chunkSize = 262144 ∧
    (getOptimizedDownloadSettings S
        { concurrency := some c, chunkSize := some k }).concurrency = c ∧
    (getOptimizedDownloadSettings S
        { concurrency := some c, chunkSize := some k }).chunkSize = k ∧
    (getUploadSettings {}).concurrency = 64 ∧
    (getUploadSettings {}).chunkSize = 32768 := by
  refine ⟨?_, by decide, by decide, ?_, ?_, by decide, by decide⟩
  · rw [← tierPair_eq_amended]
    simp [getOptimizedDownloadSettings, jsOr]
  · simp [getOptimizedDownloadSettings, jsOr, hc]
  · simp [getOptimizedDownloadSettings, jsOr, hk]

/-- Closed instance of the amended C1 theorem at S = 104857600 with
overrides 48 and 131072. -/
theorem transfer_tier_amended_witness :
    (48 : Nat) ≠ 0 ∧
    ((getOptimizedDownloadSettings 104857600 {}).concurrency,
        (getOptimizedDownloadSettings 104857600 {}).chunkSize) =
      specTierTableAmended 104857600 ∧
    (getOptimizedDownloadSettings 104857600
        { concurrency := some 48, chunkSize := some 131072 }).concurrency = 48 :=
  ⟨by decide, (transfer_tier_amended 104857600 48 131072 (by decide) (by decide)).1,
    (transfer_tier_amended 104857600 48 131072 (by decide) (by decide)).2.2.2.1⟩

/-- The loop's ghost trace always has the shape of a contiguous run of
whole-operation attempts separated by the one fixed delay. -/
theorem retryRun_trace (op : Nat → Except ErrMsg Unit) (delayMs : Nat) :
    ∀ remaining attempt, ∃ m, 1 ≤ m ∧ m ≤ remaining + 1 ∧
      (retryRun op delayMs attempt remaining).2.1 = List.range' attempt m ∧
      (retryRun op delayMs attempt remaining).2.2 = List.replicate (m - 1) delayMs := by
  intro remaining
  induction remaining with
  | zero =>
    intro attempt
    exact ⟨1, Nat.le_refl _, by omega, by simp [retryRun, List.range'], by simp [retryRun]⟩
  | succ n ih =>
    intro attempt
    cases hop : op attempt with
    | ok u =>
      exact ⟨1, Nat.le_refl _, by omega, by simp [retryRun, hop, List.range'],
        by simp [retryRun, hop]⟩
    | error e =>
      obtain ⟨m, h1, h2, h3, h4⟩ := ih (attempt + 1)
      refine ⟨m + 1, by omega, by omega, ?_, ?_⟩
      · simp only [retryRun, hop, List.range'_succ]
        simp [h3]
      · simp only [retryRun, hop]
        have : m + 1 - 1 = (m - 1) + 1 := by omega
        rw [this, List.replicate_succ]
        simp [h4]

/-- C5 counterexample: a connection-establishment failure does not throw
either.  downloadFile wraps connect in the same try/catch as the copy, so
a rejected connect resolves to success := false with the error message,
contrary to the claim that this operation throws for (exactly)
connection-establishment failures. -/
theorem download_connect_counterexample :
    downloadFile
        { connect := .error "connect ECONNREFUSED",
          statSize := .ok 1, fastGet := fun _ => .ok () }
        "/backup/a.zip" {} =
      { localPath := "/backup/a.zip", fileSize := 0, success := false,
        error := some "connect ECONNREFUSED" } := rfl

/-- C5 (amended): once connected and statted, (a) failing the first k-1
whole-copy passes and succeeding at pass k within the configured maximum
resolves with success := true; (b) failing every allowed pass resolves
with success := false carrying the last pass's error message, without
throwing (downloadFile is a total function into DownloadResult, so no
path throws - a connect failure also resolves, see the counterexample);
(c) the loop re-runs the entire copy as contiguous attempts 1..m with
the one fixed configured delay slept between consecutive attempts. -/
theorem download_retry_amended (env : SftpEnv) (localPath : String)
    (options : TransferOptions) (n : Nat)
    (hconn : env.connect = .ok ()) (hstat : env.statSize = .ok n) :
    (∀ k, 1 ≤ k → k ≤ (getOptimizedDownloadSettings n options).retryAttempts →
      (∀ i, 1 ≤ i → i < k → ∃ e, env.fastGet i = .error e) →
      env.fastGet k = .ok () →
      downloadFile env localPath options =
        { localPath := localPath, fileSize := n, success := true }) ∧
    ((∀ i, 1 ≤ i → i ≤ (getOptimizedDownloadSettings n options).retryAttempts →
        ∃ e, env.fastGet i = .error e) →
      ∃ e, env.fastGet (getOptimizedDownloadSettings n options).retryAttempts = .error e ∧
        downloadFile env localPath options =
          { localPath := localPath, fileSize := 0, success := false, error := some e }) ∧
    (∀ maxA delayMs, ∃ m, 1 ≤ m ∧ m ≤ maxA + 1 ∧
      (executeWithRetry env.fastGet (maxA + 1) delayMs).2.1 = List.range' 1 m ∧
      (executeWithRetry env.fastGet (maxA + 1) delayMs).2.2 =
        List.replicate (m - 1) delayMs) := by
  have hRA : 1 ≤ (getOptimizedDownloadSettings n options).retryAttempts := by
    show 1 ≤ jsOr options.retryAttempts 5
    cases options.retryAttempts with
    | none => simp [jsOr]
    | some v =>
      by_cases hv : v = 0
      · simp [jsOr, hv]
      · simp only [jsOr, hv, if_false]
        omega
  refine ⟨?_, ?_, ?_⟩
  · intro k hk1 hk2 hfail hok
    obtain ⟨r, hr⟩ : ∃ r, (getOptimizedDownloadSettings n options).retryAttempts = r + 1 :=
      ⟨(getOptimizedDownloadSettings n options).retryAttempts - 1, by omega⟩
    have := retryRun_first_ok env.fastGet
      (getOptimizedDownloadSettings n options).retryDelay r 1 k hk1 (by omega) hfail hok
    simp only [downloadFile, hconn, hstat, executeWithRetry, hr, this.1]
  · intro hfail
    obtain ⟨r, hr⟩ : ∃ r, (getOptimizedDownloadSettings n options).retryAttempts = r + 1 :=
      ⟨(getOptimizedDownloadSettings n options).retryAttempts - 1, by omega⟩
    have hfail2 : ∀ i, 1 ≤ i → i ≤ 1 + r → ∃ e, env.fastGet i = .error e := by
      intro i h1 h2
      exact hfail i h1 (by omega)
    have hall := retryRun_all_fail env.fastGet
      (getOptimizedDownloadSettings n options).retryDelay r 1 hfail2
    obtain ⟨e, he⟩ := hfail (getOptimizedDownloadSettings n options).retryAttempts hRA
      (Nat.le_refl _)
    refine ⟨e, he, ?_⟩
    have he2 : env.fastGet (1 + r) = .error e := by
      rw [show 1 + r = (getOptimizedDownloadSettings n options).retryAttempts from by omega]
      exact he
    simp only [downloadFile, hconn, hstat, executeWithRetry, hr, hall.1, he2]
  · intro maxA delayMs
    simpa [executeWithRetry] using retryRun_trace env.fastGet delayMs maxA 1

/-- Closed instance of the amended C5 theorem: with an environment whose
copy fails on attempts 1 and 2 and succeeds on attempt 3 (the default
maximum being 5), the download resolves successfully; with one that
always fails, all five attempts are consumed and the result is a
non-thrown failure carrying the last error. -/
theorem download_retry_amended_witness :
    downloadFile
        { connect := .ok (), statSize := .ok 7,
          fastGet := fun i => if i < 3 then .error "ECONNRESET" else .ok () }
        "/b.zip" {} =
      { localPath := "/b.zip", fileSize := 7, success := true } ∧
    downloadFile
        { connect := .ok (), statSize := .ok 7,
          fastGet := fun _ => .error "ETIMEDOUT" }
        "/b.zip" {} =
      { localPath := "/b.zip", fileSize := 0, success := false,
        error := some "ETIMEDOUT" } := by
  constructor
  · exact (download_retry_amended
        { connect := .ok (), statSize := .ok 7,
          fastGet := fun i => if i < 3 then .error "ECONNRESET" else .ok () }
        "/b.zip" {} 7 rfl rfl).1 3 (by decide) (by decide)
      (fun i h1 h2 => ⟨"ECONNRESET", by simp [h2]⟩) rfl
  · obtain ⟨e, he, hres⟩ := (download_retry_amended
        { connect := .ok (), statSize := .ok 7,
          fastGet := fun _ => .error "ETIMEDOUT" }
        "/b.zip" {} 7 rfl rfl).2.1
      (fun i _ _ => ⟨"ETIMEDOUT", rfl⟩)
    have he3 : ("ETIMEDOUT" : ErrMsg) = e := by injection he
    rw [← he3] at hres
    exact hres

/-! ## Backup job state machine: BackupService.executeBackup
    (src/src/modules/backup/services/backup.service.ts) -/

/-- The per-step flags of a BackupResult, set as the job advances. -/
structure StepStatus where
  sshConnection : Bool := false
  directoryCheck : Bool := false
  compression : Bool := false
  download : Bool := false
  googleDriveUpload : Bool := false
deriving DecidableEq, Repr

/-- BackupResult as declared in backup.service.ts (fileSize is the MB
figure the code stores). -/
structure BackupResult where
  success : Bool
  serverName : String
  localFilePath : Option String := none
  googleDriveFileId : Option String := none
  fileSize : Option Nat := none
  error : Option ErrMsg := none
  steps : StepStatus := {}
deriving DecidableEq, Repr

/-- The googleDrive part of a BackupConfig; a TS field left undefined is
none. -/
inductive UploadMethod
  | direct
  | localCopy
deriving DecidableEq, Repr

/-- config.googleDrive: enabled left undefined defers to the environment
default, uploadMethod left undefined defaults to the local method. -/
structure GoogleDriveCfg where
  enabled : Option Bool := none
  uploadMethod : Option UploadMethod := none
deriving DecidableEq, Repr

/-- The parts of BackupConfig that steer executeBackup's control flow. -/
structure BackupCfg where
  serverName : String
  googleDrive : Option GoogleDriveCfg := none
deriving DecidableEq, Repr

/-- Settled outcomes of every remote call one run of executeBackup can
make.  testConnection, checkRequiredTools and directoryExists have
internal catch-alls in SshCommandService and never reject, so they are
plain values; the others reject with a message on failure.
deleteRemoteExec is the outcome of the remote rm issued by
CompressionService.deleteRemoteFile. -/
structure BackupEnv where
  testConnection : Bool
  toolsAvailable : Bool
  dirExists : Bool
  compress : Except ErrMsg String
  driveEnabledDefault : Bool
  getReadStream : Except ErrMsg Nat
  createDateFolder : Except ErrMsg String
  uploadFromStream : Except ErrMsg String
  downloadAndOrganize : Except ErrMsg String
  localFileSizeMB : Except ErrMsg Nat
  uploadFile : Except ErrMsg String
  deleteRemoteExec : Except ErrMsg String

/-- CompressionService.deleteRemoteFile: issues rm -f and swallows any
failure (logging only), so it is a total function; the boolean reports
whether the delete actually happened and is returned to no caller (the
TS method returns void). -/
def deleteRemoteFile (execOutcome : Except ErrMsg String) : Bool :=
  match execOutcome with
  | .ok _ => true
  | .error _ => false

/-- Whether the job uploads to Google Drive: an explicitly configured
enabled flag wins, otherwise the environment default applies
(backup.service.ts lines 127-130). -/
def shouldUploadDrive (cfg : BackupCfg) (envDefault : Bool) : Bool :=
  match cfg.googleDrive with
  | some g =>
    match g.enabled with
    | some b => b
    | none => envDefault
  | none => envDefault

/-- The effective upload method; an unset method falls back to the local
one (backup.service.ts line 133). -/
def effectiveMethod (cfg : BackupCfg) : UploadMethod :=
  match cfg.googleDrive with
  | some g => g.uploadMethod.getD .localCopy
  | none => UploadMethod.localCopy

/-- The outer catch of executeBackup: record the failure reason on the
result built so far and report which remote archive (if any) must still
be cleaned up. -/
def failWith (r : BackupResult) (e : ErrMsg) (archive : Option String) :
    BackupResult × Option String :=
  ({ r with success := false, error := some e }, archive)

/-- executeBackup without the final cleanup call: returns the result and
the remote archive to clean up (some path exactly when compression had
produced one by the time the function returns).  Mirrors
backup.service.ts lines 53-398; the Discord notification calls are not
modelled.  Note the two swallowed cloud-upload failures: in direct mode
the catch around the whole stream-upload block is empty (its fallback
body is commented out in the source), and in local mode the catch around
the Drive upload only logs; in both cases control continues to cleanup
and success := true. -/
def executeBackupCore (cfg : BackupCfg) (env : BackupEnv) :
    BackupResult × Option String :=
  let r0 : BackupResult := { success := false, serverName := cfg.serverName }
  if env.testConnection = false then
    failWith r0 "SSH connection test failed" none
  else
    let r1 := { r0 with steps := { r0.steps with sshConnection := true } }
    if env.toolsAvailable = false then
      failWith r1 "Required tools not installed" none
    else if env.dirExists = false then
      failWith r1 "Target folder not found" none
    else
      let r2 := { r1 with steps := { r1.steps with directoryCheck := true } }
      match env.compress with
      | .error e => failWith r2 e none
      | .ok archive =>
        let r3 := { r2 with steps := { r2.steps with compression := true } }
        let shouldUpload := shouldUploadDrive cfg env.driveEnabledDefault
        let method := effectiveMethod cfg
        if shouldUpload && method == .direct then
          let r4 :=
            match env.getReadStream with
            | .error _ => r3
            | .ok fileSize =>
              let r4a := { r3 with fileSize := some (fileSize / 1048576) }
              match env.createDateFolder with
              | .error _ => r4a
              | .ok _ =>
                match env.uploadFromStream with
                | .error _ => r4a
                | .ok fileId =>
                  { r4a with
                    googleDriveFileId := some fileId
                    steps := { r4a.steps with googleDriveUpload := true, download := true } }
          ({ r4 with success := true }, some archive)
        else if shouldUpload then
          match env.downloadAndOrganize with
          | .error e => failWith r3 e (some archive)
          | .ok localPath =>
            let r4 := { r3 with
              localFilePath := some localPath
              steps := { r3.steps with download := true } }
            match env.localFileSizeMB with
            | .error e => failWith r4 e (some archive)
            | .ok mb =>
              let r5 := { r4 with fileSize := some mb }
              let r6 :=
                match env.uploadFile with
                | .error _ => r5
                | .ok fileId =>
                  { r5 with
                    googleDriveFileId := some fileId
                    steps := { r5.steps with googleDriveUpload := true } }
              ({ r6 with success := true }, some archive)
        else
          match env.downloadAndOrganize with
          | .error e => failWith r3 e (some archive)
          | .ok localPath =>
            let r4 := { r3 with
              localFilePath := some localPath
              steps := { r3.steps with download := true } }
            match env.localFileSizeMB with
            | .error e => failWith r4 e (some archive)
            | .ok mb =>
              ({ r4 with fileSize := some mb, success := true }, some archive)

/-- executeBackup: the core control flow followed by best-effort remote
cleanup of the compressed artifact whenever one exists, on the success
and on the failure path alike.  The trace records each cleanup
invocation as (path, whether the remote rm succeeded). -/
def executeBackup (cfg : BackupCfg) (env : BackupEnv) :
    BackupResult × List (String × Bool) :=
  let core := executeBackupCore cfg env
  (core.1,
    match core.2 with
    | some p => [(p, deleteRemoteFile env.deleteRemoteExec)]
    | none => [])

/-- A direct-upload job configuration. -/
def cfgDirect : BackupCfg :=
  { serverName := "db1"
    googleDrive := some { enabled := some true, uploadMethod := some .direct } }

/-- A run in which everything up to and including compression works and
the direct cloud upload then raises. -/
def envDirectUploadFails : BackupEnv :=
  { testConnection := true
    toolsAvailable := true
    dirExists := true
    compress := .ok "/var/www/uploads_1758000000000.zip"
    driveEnabledDefault := false
    getReadStream := .ok 2097152
    createDateFolder := .ok "folder-id-1"
    uploadFromStream := .error "Drive upload failed: quota exceeded"
    downloadAndOrganize := .ok "H:/Backup/db1/uploads.zip"
    localFileSizeMB := .ok 2
    uploadFile := .ok "unused"
    deleteRemoteExec := .ok "" }

/-- C3 counterexample: an exception raised during the direct cloud-upload
step does yield BackupResult with success := true.  The catch around the
direct-upload block is empty (its fallback body is commented out in the
source), so the error is swallowed, no failure reason is recorded, and
the job proceeds to cleanup and reports overall success with
googleDriveUpload still false. -/
theorem backup_direct_swallow_counterexample :
    (executeBackup cfgDirect envDirectUploadFails).1.success = true ∧
    (executeBackup cfgDirect envDirectUploadFails).1.steps.googleDriveUpload = false ∧
    (executeBackup cfgDirect envDirectUploadFails).1.error = none ∧
    (executeBackup cfgDirect envDirectUploadFails).2 =
      [("/var/www/uploads_1758000000000.zip", true)] := by
  decide

/-- C3 (amended): with SSH, tool and directory checks passed and
compression succeeded, (1) remote cleanup of the archive is always
attempted, on success and failure paths alike; (2) an exception in the
transfer step aborts the job with success := false and the failure
reason recorded; but (3) in direct mode the job can no longer fail at
all: any exception in the cloud-upload block (stream open, folder
creation or stream upload) is swallowed, the result reports
success := true with no error, and googleDriveUpload is true exactly
when all three cloud calls succeeded; and (4) in local mode a
Drive-upload exception is likewise swallowed with success := true. -/
theorem backup_exception_amended (cfg : BackupCfg) (env : BackupEnv) (p : String)
    (htc : env.testConnection = true)
    (htools : env.toolsAvailable = true)
    (hdir : env.dirExists = true)
    (hcomp : env.compress = .ok p) :
    ((executeBackup cfg env).2 = [(p, deleteRemoteFile env.deleteRemoteExec)] ∧
      (executeBackup cfg env).1.steps.compression = true) ∧
    (∀ e, (shouldUploadDrive cfg env.driveEnabledDefault &&
        (effectiveMethod cfg == .direct)) = false →
      env.downloadAndOrganize = .error e →
      (executeBackup cfg env).1.success = false ∧
      (executeBackup cfg env).1.error = some e) ∧
    (shouldUploadDrive cfg env.driveEnabledDefault = true →
      effectiveMethod cfg = .direct →
      (executeBackup cfg env).1.success = true ∧
      (executeBackup cfg env).1.error = none ∧
      ((executeBackup cfg env).1.steps.googleDriveUpload = true ↔
        (∃ s, env.getReadStream = .ok s) ∧ (∃ f, env.createDateFolder = .ok f) ∧
          ∃ fid, env.uploadFromStream = .ok fid)) ∧
    (∀ lp mb e, shouldUploadDrive cfg env.driveEnabledDefault = true →
      effectiveMethod cfg = .localCopy →
      env.downloadAndOrganize = .ok lp →
      env.localFileSizeMB = .ok mb →
      env.uploadFile = .error e →
      (executeBackup cfg env).1.success = true ∧
      (executeBackup cfg env).1.steps.googleDriveUpload = false ∧
      (executeBackup cfg env).1.localFilePath = some lp) := by
  simp only [executeBackup, executeBackupCore, failWith, htc, htools, hdir, hcomp]
  refine ⟨?_, ?_, ?_, ?_⟩
  · by_cases hd : (shouldUploadDrive cfg env.driveEnabledDefault &&
        (effectiveMethod cfg == .direct)) = true
    · simp only [hd, if_true]
      cases env.getReadStream with
      | error e => simp
      | ok s =>
        cases env.createDateFolder with
        | error e => simp
        | ok f =>
          cases env.uploadFromStream with
          | error e => simp
          | ok fid => simp
    · simp only [Bool.not_eq_true] at hd
      simp only [hd, Bool.false_eq_true, if_false]
      by_cases hsu : shouldUploadDrive cfg env.driveEnabledDefault = true
      · simp only [hsu, if_true]
        cases env.downloadAndOrganize with
        | error e => simp
        | ok lp =>
          cases env.localFileSizeMB with
          | error e => simp
          | ok mb =>
            cases env.uploadFile with
            | error e => simp
            | ok fid => simp
      · simp only [Bool.not_eq_true] at hsu
        simp only [hsu, Bool.false_eq_true, if_false]
        cases env.downloadAndOrganize with
        | error e => simp
        | ok lp =>
          cases env.localFileSizeMB with
          | error e => simp
          | ok mb => simp
  · intro e hd hdl
    simp only [hd, Bool.false_eq_true, if_false, hdl]
    by_cases hsu : shouldUploadDrive cfg env.driveEnabledDefault = true
    · simp [hsu]
    · simp only [Bool.not_eq_true] at hsu
      simp [hsu]
  · intro hsu hm
    simp only [hsu, hm, BEq.refl, Bool.and_self, if_true]
    cases env.getReadStream with
    | error e =>
      simp only [true_and]
      constructor
      · simp
      constructor
      · simp
      · constructor
        · intro h
          simp at h
        · rintro ⟨⟨s, hs⟩, _, _⟩
          simp at hs
    | ok s =>
      cases env.createDateFolder with
      | error e =>
        refine ⟨by simp, by simp, ?_, ?_⟩
        · intro h
          simp at h
        · rintro ⟨_, ⟨f, hf⟩, _⟩
          simp at hf
      | ok f =>
        cases env.uploadFromStream with
        | error e =>
          refine ⟨by simp, by simp, ?_, ?_⟩
          · intro h
            simp at h
          · rintro ⟨_, _, fid, hfid⟩
            simp at hfid
        | ok fid => simp
  · intro lp mb e hsu hm hdl hmb hup
    have hd : (shouldUploadDrive cfg env.driveEnabledDefault &&
        (effectiveMethod cfg == .direct)) = false := by
      simp [hm]
    simp [hd, hsu, hm, hdl, hmb, hup]

/-- Closed instance of the amended C3 theorem on the concrete failing
direct upload run: cleanup still happens and the job reports success
with the upload flag down. -/
theorem backup_exception_amended_witness :
    ((executeBackup cfgDirect envDirectUploadFails).2 =
        [("/var/www/uploads_1758000000000.zip",
          deleteRemoteFile envDirectUploadFails.deleteRemoteExec)] ∧
      (executeBackup cfgDirect envDirectUploadFails).1.steps.compression = true) ∧
    (executeBackup cfgDirect envDirectUploadFails).1.success = true :=
  ⟨(backup_exception_amended cfgDirect envDirectUploadFails
      "/var/www/uploads_1758000000000.zip" rfl rfl rfl rfl).1,
    ((backup_exception_amended cfgDirect envDirectUploadFails
      "/var/www/uploads_1758000000000.zip" rfl rfl rfl rfl).2.2.1 rfl rfl).1⟩

/-- A local-mode job configuration. -/
def cfgLocal : BackupCfg :=
  { serverName := "db2"
    googleDrive := some { enabled := some true, uploadMethod := some .localCopy } }

/-- A run that compresses fine and then fails in the transfer step, with
the remote rm of the archive also failing. -/
def envDownloadFails : BackupEnv :=
  { testConnection := true
    toolsAvailable := true
    dirExists := true
    compress := .ok "/var/www/uploads_1758000000001.zip"
    driveEnabledDefault := false
    getReadStream := .ok 0
    createDateFolder := .ok "folder-id-2"
    uploadFromStream := .ok "file-id-2"
    downloadAndOrganize := .error "fastGet failed: ECONNRESET"
    localFileSizeMB := .ok 0
    uploadFile := .ok "unused"
    deleteRemoteExec := .error "Command failed with code 1" }

/-- C6: a job that fails after compression but before the transfer step
still attempts remote deletion of the archive, reports
steps.compression = true with the transfer flag false, and the outcome
of the remote rm (swallowed inside deleteRemoteFile, which is a total
function) never changes the returned result. -/
theorem backup_cleanup_after_compression (cfg : BackupCfg) (env : BackupEnv)
    (p : String) (e : ErrMsg)
    (htc : env.testConnection = true)
    (htools : env.toolsAvailable = true)
    (hdir : env.dirExists = true)
    (hcomp : env.compress = .ok p)
    (hnotdirect : (shouldUploadDrive cfg env.driveEnabledDefault &&
      (effectiveMethod cfg == .direct)) = false)
    (hdl : env.downloadAndOrganize = .error e) :
    (executeBackup cfg env).1.success = false ∧
    (executeBackup cfg env).1.steps.compression = true ∧
    (executeBackup cfg env).1.steps.download = false ∧
    (executeBackup cfg env).1.error = some e ∧
    (executeBackup cfg env).2 = [(p, deleteRemoteFile env.deleteRemoteExec)] ∧
    ∀ o, (executeBackup cfg { env with deleteRemoteExec := o }).1 =
      (executeBackup cfg env).1 := by
  have hind : ∀ o, (executeBackup cfg { env with deleteRemoteExec := o }).1 =
      (executeBackup cfg env).1 := fun o => rfl
  refine ⟨?_, ?_, ?_, ?_, ?_, hind⟩ <;>
    simp only [executeBackup, executeBackupCore, failWith, htc, htools, hdir, hcomp,
      hnotdirect, Bool.false_eq_true, if_false, hdl] <;>
    by_cases hsu : shouldUploadDrive cfg env.driveEnabledDefault = true <;>
    simp_all

/-- Closed instance of the C6 theorem on the concrete failing run,
including that a failing remote rm leaves the verdict untouched. -/
theorem backup_cleanup_after_compression_witness :
    (executeBackup cfgLocal envDownloadFails).1.success = false ∧
    (executeBackup cfgLocal envDownloadFails).1.steps.compression = true ∧
    (executeBackup cfgLocal envDownloadFails).1.steps.download = false ∧
    (executeBackup cfgLocal envDownloadFails).2 =
      [("/var/www/uploads_1758000000001.zip", false)] :=
  have h := backup_cleanup_after_compression cfgLocal envDownloadFails
    "/var/www/uploads_1758000000001.zip" "fastGet failed: ECONNRESET"
    rfl rfl rfl rfl (by decide) rfl
  ⟨h.1, h.2.1, h.2.2.1, h.2.2.2.2.1⟩

/-! ## Parallel batch orchestrator: BackupController.bulkExecuteBackup
    (src/src/modules/backup/controllers/backup.controller.ts) -/

/-- The per-job boundary of the bulk endpoint: the settled outcome of one
executeBackup promise is taken as is when it resolved, and a rejected
promise is converted at this boundary into a failed BackupResult for
that server with all step flags false, so the rejection never reaches
Promise.all. -/
def perJobResult (serverName : String) (outcome : Except ErrMsg BackupResult) :
    BackupResult :=
  match outcome with
  | .ok r => r
  | .error e => { success := false, serverName := serverName, error := some e }

/-- The aggregate the bulk endpoint returns (totalTime not modelled). -/
structure BulkBackupResult where
  totalServers : Nat
  successCount : Nat
  failureCount : Nat
  results : List BackupResult
deriving DecidableEq, Repr

/-- BackupController.bulkExecuteBackup: one promise per server config,
awaited with Promise.all.  Promise.all settles only after every promise
settles and returns the values in index order, independent of completion
order; the embedding reflects that contract by mapping over the input
list.  A job is modelled by its server name and the settled outcome of
its executeBackup call. -/
def bulkExecuteBackup (jobs : List (String × Except ErrMsg BackupResult)) :
    BulkBackupResult :=
  let results := jobs.map fun j => perJobResult j.1 j.2
  { totalServers := jobs.length
    successCount := (results.filter fun r => r.success).length
    failureCount := (results.filter fun r => !r.success).length
    results := results }

/-- Splitting a list by a boolean predicate preserves its length. -/
theorem length_filter_add_length_filter_not {α : Type} (l : List α) (q : α → Bool) :
    (l.filter q).length + (l.filter fun a => !q a).length = l.length := by
  induction l with
  | nil => rfl
  | cons a t ih => cases h : q a <;> simp [List.filter_cons, h] <;> omega

/-- C4: the batch result counts every job (totalServers and the results
list have the input length), successCount and failureCount count exactly
the succeeded and failed jobs and sum to N, the i-th result is the
per-job conversion of the i-th input job - so ordering matches the input
and each slot depends only on its own job - and a job whose promise
rejected appears as a failed BackupResult in its own slot. -/
theorem bulk_aggregation (jobs : List (String × Except ErrMsg BackupResult))
    (i : Nat) (hi : i < jobs.length) :
    (bulkExecuteBackup jobs).totalServers = jobs.length ∧
    (bulkExecuteBackup jobs).results.length = jobs.length ∧
    (bulkExecuteBackup jobs).successCount =
      (jobs.filter fun j => (perJobResult j.1 j.2).success).length ∧
    (bulkExecuteBackup jobs).failureCount =
      (jobs.filter fun j => !(perJobResult j.1 j.2).success).length ∧
    (bulkExecuteBackup jobs).successCount + (bulkExecuteBackup jobs).failureCount =
      jobs.length ∧
    (bulkExecuteBackup jobs).results[i]? =
      some (perJobResult (jobs.get ⟨i, hi⟩).1 (jobs.get ⟨i, hi⟩).2) ∧
    (∀ e, (jobs.get ⟨i, hi⟩).2 = .error e →
      (bulkExecuteBackup jobs).results[i]? =
        some { success := false, serverName := (jobs.get ⟨i, hi⟩).1,
               error := some e }) := by
  refine ⟨rfl, by simp [bulkExecuteBackup], ?_, ?_, ?_, ?_, ?_⟩
  · simp only [bulkExecuteBackup, ← List.countP_eq_length_filter, List.countP_map]
    rfl
  · simp only [bulkExecuteBackup, ← List.countP_eq_length_filter, List.countP_map]
    rfl
  · simp only [bulkExecuteBackup]
    have := length_filter_add_length_filter_not
      (jobs.map fun j => perJobResult j.1 j.2) (fun r => r.success)
    simpa using this
  · simp [bulkExecuteBackup, List.getElem?_map, List.getElem?_eq_getElem hi]
  · intro e he
    simp only [List.get_eq_getElem] at he
    simp [bulkExecuteBackup, List.getElem?_map, List.getElem?_eq_getElem hi, he,
      perJobResult]

/-- The spec's concrete batch: four jobs, the second crafted to fail
(unreachable host, its promise rejects), the other three succeeding. -/
def demoJobs : List (String × Except ErrMsg BackupResult) :=
  [("s1", .ok { success := true, serverName := "s1" }),
   ("s2", .error "connect EHOSTUNREACH"),
   ("s3", .ok { success := true, serverName := "s3" }),
   ("s4", .ok { success := true, serverName := "s4" })]

/-- Closed instance of the C4 theorem on the four-job batch: counts are
3/1 over 4 servers, and slot 2 holds the converted failure in input
order. -/
theorem bulk_aggregation_witness :
    (bulkExecuteBackup demoJobs).totalServers = 4 ∧
    (bulkExecuteBackup demoJobs).successCount = 3 ∧
    (bulkExecuteBackup demoJobs).failureCount = 1 ∧
    (bulkExecuteBackup demoJobs).results[1]? =
      some { success := false, serverName := "s2",
             error := some "connect EHOSTUNREACH" } :=
  ⟨by decide, by decide, by decide,
    (bulk_aggregation demoJobs 1 (by decide)).2.2.2.2.2.2 "connect EHOSTUNREACH" rfl⟩

/-! ## Remote filesystem probe: SshCommandService.directoryExists
    (src/src/modules/shared/services/ssh-command.service.ts) -/

/-- Transport-level behaviour under the probe's conditional test. -/
inductive ProbeTransport
  | works (dirPresent : Bool)
  | fails (e : ErrMsg)
deriving DecidableEq, Repr

/-- Outcome of executeCommand on the compound test the probe sends
([ -d path ] && echo exists || echo not_exists): when the transport
works the command always exits 0 and echoes one of two markers with a
trailing newline; a transport or auth failure rejects with the
underlying error. -/
def runDirProbe : ProbeTransport → Except ErrMsg String
  | .works true => .ok "exists\n"
  | .works false => .ok "not_exists\n"
  | .fails e => .error e

/-- JS String.prototype.trim: strip whitespace from both ends. -/
def jsTrim (s : String) : String :=
  String.mk
    (((s.data.dropWhile Char.isWhitespace).reverse.dropWhile Char.isWhitespace).reverse)

/-- SshCommandService.directoryExists: trims and interprets the probe
output; its catch-all converts every raised error into false. -/
def directoryExists (t : ProbeTransport) : Bool :=
  match runDirProbe t with
  | .ok out => jsTrim out == "exists"
  | .error _ => false

/-- The probe as the spec describes it, for comparison: a "not found"
result is still a boolean, but transport/auth failures propagate as
errors instead of being converted. -/
def directoryExistsSpec : ProbeTransport → Except ErrMsg Bool
  | .works b => .ok b
  | .fails e => .error e

/-- C8 counterexample: on a transport failure the code returns the
boolean false - the catch-all at ssh-command.service.ts line 88 catches
every error, connection errors included - instead of propagating it as
the claim requires. -/
theorem directoryExists_counterexample :
    directoryExists (.fails "connect ECONNREFUSED") = false ∧
    directoryExistsSpec (.fails "connect ECONNREFUSED") =
      .error "connect ECONNREFUSED" := by
  constructor <;> rfl

/-- C8 (amended): directoryExists never throws at all.  With a working
transport it returns exactly whether the directory exists, by
interpreting the echoed marker, and a transport or auth failure is
converted into false by the catch-all rather than propagated. -/
theorem directoryExists_amended (t : ProbeTransport) :
    directoryExists t =
      match t with
      | .works b => b
      | .fails _ => false := by
  cases t with
  | works b => cases b <;> decide
  | fails e => rfl

/-! ## Google Drive date folders: GoogleDriveService.createDateFolder
    (src/src/modules/google-drive/services/google-drive.service.ts) -/

/-- A calendar date as the services read it off new Date(): year, human
month (the code computes getMonth() + 1) and day of month. -/
structure Date where
  year : Nat
  month : Nat
  day : Nat
deriving DecidableEq, Repr

/-- String(n).padStart(2, the zero digit): pad a decimal rendering to
width two. -/
def pad2 (n : Nat) : String :=
  if n < 10 then "0" ++ toString n else toString n

/-- The folder-name derivation used throughout the code base:
YYYY_MM_DD-Database_serverName. -/
def dateFolderName (d : Date) (serverName : String) : String :=
  toString d.year ++ "_" ++ pad2 d.month ++ "_" ++ pad2 d.day ++
    "-Database_" ++ serverName

/-- A folder as Drive stores it. -/
structure DriveFolder where
  id : String
  name : String
  parent : Option String
deriving DecidableEq, Repr

/-- The Drive state createDateFolder interacts with: the stored folders
in the order drive.files.list reports them, and a counter producing
fresh ids for drive.files.create. -/
structure DriveState where
  folders : List DriveFolder
  nextId : Nat
deriving DecidableEq, Repr

/-- The search query the code issues before creating: name equality
always, and the parent clause only when a parent folder id is
supplied. -/
def matchesQuery (name : String) (parent : Option String) (f : DriveFolder) : Bool :=
  f.name == name &&
    match parent with
    | some pp => f.parent == some pp
    | none => true

/-- GoogleDriveService.createDateFolder: derive the date-based name,
return the id of the first existing folder matching the query if there
is one, otherwise create a new folder under the given parent and return
its fresh id. -/
def createDateFolder (serverName : String) (d : Date) (parent : Option String)
    (st : DriveState) : String × DriveState :=
  let folderName := dateFolderName d serverName
  match st.folders.find? (matchesQuery folderName parent) with
  | some f => (f.id, st)
  | none =>
    let newId := "folder_" ++ toString st.nextId
    (newId,
      { folders := st.folders ++ [⟨newId, folderName, parent⟩]
        nextId := st.nextId + 1 })

/-- find? skips over a prefix containing no match. -/
theorem find?_append_of_none {α : Type} (l1 l2 : List α) (q : α → Bool)
    (h : l1.find? q = none) : (l1 ++ l2).find? q = l2.find? q := by
  induction l1 with
  | nil => simp
  | cons a t ih =>
    rw [List.find?_cons] at h
    rw [List.cons_append, List.find?_cons]
    cases hq : q a with
    | true => simp [hq] at h
    | false =>
      simp only [hq] at h ⊢
      exact ih h

/-- C7: the folder name for server db1 on 2025-10-21 is exactly
2025_10_21-Database_db1 (the derivation is a pure function of date and
server name, hence deterministic), and folder creation is idempotent: a
second call with the same name and parent returns the same folder id as
the first and leaves the Drive state unchanged, reusing the existing
folder instead of creating a duplicate. -/
theorem createDateFolder_idempotent (serverName : String) (d : Date)
    (parent : Option String) (st : DriveState) :
    dateFolderName ⟨2025, 10, 21⟩ "db1" = "2025_10_21-Database_db1" ∧
    (createDateFolder serverName d parent
        (createDateFolder serverName d parent st).2).1 =
      (createDateFolder serverName d parent st).1 ∧
    (createDateFolder serverName d parent
        (createDateFolder serverName d parent st).2).2 =
      (createDateFolder serverName d parent st).2 := by
  refine ⟨by decide, ?_⟩
  cases hfind : st.folders.find? (matchesQuery (dateFolderName d serverName) parent) with
  | some f =>
    simp [createDateFolder, hfind]
  | none =>
    have hq : matchesQuery (dateFolderName d serverName) parent
        ⟨"folder_" ++ toString st.nextId, dateFolderName d serverName, parent⟩ = true := by
      simp only [matchesQuery]
      cases parent <;> simp
    simp only [createDateFolder, hfind]
    rw [find?_append_of_none _ _ _ hfind]
    simp [List.find?_cons, hq]

/-! ## Clean filename normalization: FileTransferService.getCleanFileName
    (src/unnamed/part_008) -/

/-- Position of the last dot in the character list, if any
(filename.lastIndexOf of the dot character). -/
def lastDotIdxAux : List Char → Nat → Option Nat → Option Nat
  | [], _, acc => acc
  | c :: rest, i, acc =>
    lastDotIdxAux rest (i + 1) (if c = '.' then some i else acc)

/-- Entry point of the last-dot scan. -/
def lastDotIdx (l : List Char) : Option Nat :=
  lastDotIdxAux l 0 none

/-- Pointwise shape check: the list starts with characters satisfying
the given predicates in order. -/
def startsWithShape : List (Char → Bool) → List Char → Bool
  | [], _ => true
  | _ :: _, [] => false
  | p :: ps, c :: cs => p c && startsWithShape ps cs

/-- The end-anchored timestamp pattern the code removes: underscore,
eight digits, optionally underscore and six digits, at the end of the
base name.  Because the pattern must run to the end of the string, its
leftmost match removes 16 characters when the long form fits and
otherwise 9 when the short form does; checked here on the reversed
list. -/
def stripTimestamp (base : List Char) : List Char :=
  let r := base.reverse
  let digit := fun c : Char => c.isDigit
  let usc := fun c : Char => c == '_'
  if startsWithShape
      (List.replicate 6 digit ++ [usc] ++ List.replicate 8 digit ++ [usc]) r then
    (r.drop 16).reverse
  else if startsWithShape (List.replicate 8 digit ++ [usc]) r then
    (r.drop 9).reverse
  else base

/-- The case-insensitive end-anchored suffix alternatives _backup, _new,
_old, _tmp, _temp the code removes next.  End anchoring again makes the
leftmost match the longest applicable alternative: _backup, then _temp,
then the length-4 alternatives (at most one of which can fit). -/
def stripNameSuffix (base : List Char) : List Char :=
  let low := base.map Char.toLower
  if "_backup".data.isSuffixOf low then base.take (base.length - 7)
  else if "_temp".data.isSuffixOf low then base.take (base.length - 5)
  else if "_new".data.isSuffixOf low then base.take (base.length - 4)
  else if "_old".data.isSuffixOf low then base.take (base.length - 4)
  else if "_tmp".data.isSuffixOf low then base.take (base.length - 4)
  else base

/-- Split a filename into base and extension as the code does: the
double extension .tar.gz is peeled as a unit, otherwise everything from
the last dot on is the extension, and a dotless name has none. -/
def splitExt (filename : List Char) : List Char × List Char :=
  if ".tar.gz".data.isSuffixOf filename then
    (filename.take (filename.length - 7), ".tar.gz".data)
  else
    match lastDotIdx filename with
    | some i => (filename.take i, filename.drop i)
    | none => (filename, [])

/-- Containment of a contiguous character run (String.includes). -/
def containsSub (need hay : List Char) : Bool :=
  match hay with
  | [] => need.isEmpty
  | _ :: t => need.isPrefixOf hay || containsSub need t

/-- FileTransferService.getCleanFileName: split off the extension, strip
a trailing timestamp, strip a known suffix, replace an empty or
whitespace-only base by uploads, normalize any base mentioning upload
or database (case-insensitively) to uploads, and reattach the
extension. -/
def getCleanFileName (filename : String) : String :=
  let be := splitExt filename.data
  let base1 := stripTimestamp be.1
  let base2 := stripNameSuffix base1
  let base3 := if base2.all Char.isWhitespace then "uploads".data else base2
  let low := base3.map Char.toLower
  let base4 :=
    if containsSub "upload".data low || containsSub "database".data low then
      "uploads".data
    else base3
  String.mk (base4 ++ be.2)

/-- C9: normalization maps uploads.zip to itself, and any name the
normalization leaves unchanged (an already-clean name) is unchanged by
arbitrarily many further applications, which is the claimed idempotence
on already-clean names. -/
theorem getCleanFileName_idempotent (s : String) (n : Nat)
    (h : getCleanFileName s = s) :
    getCleanFileName "uploads.zip" = "uploads.zip" ∧
    getCleanFileName^[n] s = s := by
  refine ⟨by decide, ?_⟩
  induction n with
  | zero => rfl
  | succ m ih => rw [Function.iterate_succ_apply, h, ih]

/-- Closed instance of the C9 theorem: uploads.zip is a fixed point, and
normalizing it twice still returns it. -/
theorem getCleanFileName_idempotent_witness :
    getCleanFileName "uploads.zip" = "uploads.zip" ∧
    getCleanFileName^[2] "uploads.zip" = "uploads.zip" :=
  ⟨(getCleanFileName_idempotent "uploads.zip" 2 (by decide)).1,
    (getCleanFileName_idempotent "uploads.zip" 2 (by decide)).2⟩

/-! ## Upload strategy resolver: LargeFileUploadService and
    HybridUploadService (src/src/modules/shared/services) -/

/-- One concrete upload strategy, across both chains. -/
inductive Strategy
  | largeRclone
  | largeGdrive
  | largeOptStream
  | largeChunkStream
  | rcloneDirect
  | localFallback
deriving DecidableEq, Repr

/-- Settled outcomes of the remote calls the large-file chain makes.
probe is the getReadStream-based size probe; HybridUploadService and
LargeFileUploadService both call getRemoteFileSize on the same file
within one run, so one oracle serves every probe of the run.
whichRclone and whichGdrive are the executeCommand availability probes
whose trimmed output gates the CLI strategies; the upload fields hold
each strategy's outcome.  The chunked-streaming last resort calls the
optimized-streaming implementation again, hence shares its oracle. -/
structure LargeEnv where
  probe : Except ErrMsg Nat
  whichRclone : Except ErrMsg String
  rcloneLarge : Except ErrMsg Unit
  whichGdrive : Except ErrMsg String
  gdriveLarge : Except ErrMsg String
  optStream : Except ErrMsg String

/-- getRemoteFileSize of both services: a failed probe is logged and
becomes size 0; the probe error is not rethrown. -/
def probedSize (probe : Except ErrMsg Nat) : Nat :=
  match probe with
  | .ok n => n
  | .error _ => 0

/-- What the large-file chain resolves with. -/
structure LargeOutcome where
  method : Strategy
  fileSize : Nat
deriving DecidableEq, Repr

/-- Strategies 3 and 4 of LargeFileUploadService.uploadLargeFile:
optimized streaming, then chunked streaming, which the code implements
by calling the optimized-streaming path again; exhausting both throws
the aggregated error built from the last failure. -/
def largeStage3 (env : LargeEnv) (fs : Nat) (tr : List Strategy) :
    Except ErrMsg LargeOutcome × List Strategy :=
  match env.optStream with
  | .ok _ => (.ok ⟨.largeOptStream, fs⟩, tr ++ [.largeOptStream])
  | .error _ =>
    match env.optStream with
    | .ok _ => (.ok ⟨.largeChunkStream, fs⟩, tr ++ [.largeOptStream, .largeChunkStream])
    | .error e =>
      (.error ("All large file upload methods failed. Last error: " ++ e),
        tr ++ [.largeOptStream, .largeChunkStream])

/-- Strategy 2 of uploadLargeFile: the gdrive CLI, attempted only when
the availability probe prints a nonempty path; a probe failure or an
upload failure demotes to the streaming strategies. -/
def largeStage2 (env : LargeEnv) (fs : Nat) (tr : List Strategy) :
    Except ErrMsg LargeOutcome × List Strategy :=
  match env.whichGdrive with
  | .error _ => largeStage3 env fs tr
  | .ok out =>
    if jsTrim out == "" then largeStage3 env fs tr
    else
      match env.gdriveLarge with
      | .ok _ => (.ok ⟨.largeGdrive, fs⟩, tr ++ [.largeGdrive])
      | .error _ => largeStage3 env fs (tr ++ [.largeGdrive])

/-- LargeFileUploadService.uploadLargeFile: probe the size (0 on probe
failure), then rclone, gdrive CLI, optimized streaming and chunked
streaming in order, each failure demoted to the next strategy; the
ghost trace lists the upload strategies actually executed. -/
def uploadLargeFile (env : LargeEnv) : Except ErrMsg LargeOutcome × List Strategy :=
  let fs := probedSize env.probe
  match env.whichRclone with
  | .error _ => largeStage2 env fs []
  | .ok out =>
    if jsTrim out == "" then largeStage2 env fs []
    else
      match env.rcloneLarge with
      | .ok _ => (.ok ⟨.largeRclone, fs⟩, [.largeRclone])
      | .error _ => largeStage2 env fs [.largeRclone]

/-- Settled outcomes for one run of the hybrid resolver: the large-file
chain environment (whose probe oracle also serves the hybrid resolver's
own size probes), the DirectUploadService availability check (total, its
catch returns false), the rclone direct upload, and the local
download-then-upload fallback, whose success carries the measured size
of the local copy. -/
structure HybridEnv where
  large : LargeEnv
  rcloneAvailable : Bool
  rcloneUpload : Except ErrMsg Unit
  localFallback : Except ErrMsg Nat

/-- The method tag uploadWithHybrid reports. -/
inductive HybridMethod
  | rclone
  | localMethod
  | largeFileOptimized
deriving DecidableEq, Repr

/-- What the hybrid resolver resolves with. -/
structure HybridOutcome where
  method : HybridMethod
  fileSize : Nat
deriving DecidableEq, Repr

/-- The standard chain of HybridUploadService.uploadWithHybrid: the
rclone direct attempt when available, then the local fallback; on the
rclone win the reported size is a fresh remote probe, on the local win
it is the measured local copy size, and exhaustion throws the
aggregated error built from the local failure. -/
def hybridStandardChain (env : HybridEnv) (tr : List Strategy) :
    Except ErrMsg HybridOutcome × List Strategy :=
  let localStep : List Strategy → Except ErrMsg HybridOutcome × List Strategy :=
    fun tr2 =>
      match env.localFallback with
      | .ok localSize => (.ok ⟨.localMethod, localSize⟩, tr2 ++ [.localFallback])
      | .error e =>
        (.error ("All upload methods failed. Last error: " ++ e),
          tr2 ++ [.localFallback])
  if env.rcloneAvailable then
    match env.rcloneUpload with
    | .ok _ => (.ok ⟨.rclone, probedSize env.large.probe⟩, tr ++ [.rcloneDirect])
    | .error _ => localStep (tr ++ [.rcloneDirect])
  else localStep tr

/-- HybridUploadService.uploadWithHybrid: probe the size (0 when the
probe raises), run the large-file chain when the size strictly exceeds
1 GiB (the double comparison fileSizeGB > 1 is exact for integer byte
counts), and on its failure - or for smaller sizes - fall through to
the standard chain. -/
def uploadWithHybrid (env : HybridEnv) : Except ErrMsg HybridOutcome × List Strategy :=
  let fs := probedSize env.large.probe
  if 1073741824 < fs then
    let lr := uploadLargeFile env.large
    match lr.1 with
    | .ok o => (.ok ⟨.largeFileOptimized, o.fileSize⟩, lr.2)
    | .error _ => hybridStandardChain env lr.2
  else hybridStandardChain env []

/-- The streaming stages execute no local fallback. -/
theorem local_notMem_largeStage3 (env : LargeEnv) (fs : Nat) (tr : List Strategy)
    (h : Strategy.localFallback ∉ tr) :
    Strategy.localFallback ∉ (largeStage3 env fs tr).2 := by
  cases ho : env.optStream <;> simp [largeStage3, ho, h]

/-- The gdrive stage executes no local fallback either. -/
theorem local_notMem_largeStage2 (env : LargeEnv) (fs : Nat) (tr : List Strategy)
    (h : Strategy.localFallback ∉ tr) :
    Strategy.localFallback ∉ (largeStage2 env fs tr).2 := by
  unfold largeStage2
  cases env.whichGdrive with
  | error e => exact local_notMem_largeStage3 env fs tr h
  | ok out =>
    simp only
    split
    · exact local_notMem_largeStage3 env fs tr h
    · cases env.gdriveLarge with
      | ok u => simp [h]
      | error e => exact local_notMem_largeStage3 env fs _ (by simp [h])

/-- The whole large-file chain never executes the local fallback. -/
theorem local_notMem_uploadLargeFile (env : LargeEnv) :
    Strategy.localFallback ∉ (uploadLargeFile env).2 := by
  unfold uploadLargeFile
  cases env.whichRclone with
  | error e => exact local_notMem_largeStage2 env _ [] (by simp)
  | ok out =>
    simp only
    split
    · exact local_notMem_largeStage2 env _ [] (by simp)
    · cases env.rcloneLarge with
      | ok u => simp
      | error e => exact local_notMem_largeStage2 env _ [.largeRclone] (by simp)

/-- A successful rclone direct attempt keeps the local fallback out of
the standard chain as well. -/
theorem standardChain_rclone_ok (env : HybridEnv) (tr : List Strategy) (u : Unit)
    (htr : Strategy.localFallback ∉ tr)
    (hra : env.rcloneAvailable = true) (hru : env.rcloneUpload = .ok u) :
    Strategy.localFallback ∉ (hybridStandardChain env tr).2 := by
  simp [hybridStandardChain, hra, hru, htr]

/-- C2 (amended): the large-file chain itself contains no local-fallback
strategy, and when a file above the 1 GiB threshold succeeds somewhere
in that chain the resolver returns its outcome without ever executing
the local fallback; but the exclusion is from the chain itself only -
whenever the local fallback did run, either the file was not above the
threshold or every strategy of the large-file chain had failed, and the
rclone direct attempt in the standard chain had not succeeded either. -/
theorem hybrid_large_chain_amended (env : HybridEnv) :
    Strategy.localFallback ∉ (uploadLargeFile env.large).2 ∧
    (∀ o, 1073741824 < probedSize env.large.probe →
      (uploadLargeFile env.large).1 = .ok o →
      (uploadWithHybrid env).1 = .ok ⟨.largeFileOptimized, o.fileSize⟩ ∧
      Strategy.localFallback ∉ (uploadWithHybrid env).2) ∧
    (Strategy.localFallback ∈ (uploadWithHybrid env).2 →
      (1073741824 < probedSize env.large.probe →
        ∃ e, (uploadLargeFile env.large).1 = .error e) ∧
      (env.rcloneAvailable = true → ∃ e, env.rcloneUpload = .error e)) := by
  have hbig : ∀ o, 1073741824 < probedSize env.large.probe →
      (uploadLargeFile env.large).1 = .ok o →
      (uploadWithHybrid env).1 = .ok ⟨.largeFileOptimized, o.fileSize⟩ ∧
      (uploadWithHybrid env).2 = (uploadLargeFile env.large).2 := by
    intro o hgt hok
    simp only [uploadWithHybrid]
    rw [if_pos hgt, hok]
    exact ⟨rfl, rfl⟩
  refine ⟨local_notMem_uploadLargeFile env.large, ?_, ?_⟩
  · intro o hgt hok
    refine ⟨(hbig o hgt hok).1, ?_⟩
    rw [(hbig o hgt hok).2]
    exact local_notMem_uploadLargeFile env.large
  · intro hmem
    constructor
    · intro hgt
      cases hUL : (uploadLargeFile env.large).1 with
      | error e => exact ⟨e, rfl⟩
      | ok o =>
        exfalso
        rw [(hbig o hgt hUL).2] at hmem
        exact local_notMem_uploadLargeFile env.large hmem
    · intro hra
      cases hru : env.rcloneUpload with
      | error e2 => exact ⟨e2, rfl⟩
      | ok u =>
        exfalso
        by_cases hgt : 1073741824 < probedSize env.large.probe
        · cases hUL : (uploadLargeFile env.large).1 with
          | ok o =>
            rw [(hbig o hgt hUL).2] at hmem
            exact local_notMem_uploadLargeFile env.large hmem
          | error e =>
            have htr : (uploadWithHybrid env).2 =
                (hybridStandardChain env (uploadLargeFile env.large).2).2 := by
              simp only [uploadWithHybrid]
              rw [if_pos hgt, hUL]
            rw [htr] at hmem
            exact standardChain_rclone_ok env _ u
              (local_notMem_uploadLargeFile env.large) hra hru hmem
        · have htr : (uploadWithHybrid env).2 = (hybridStandardChain env []).2 := by
            simp only [uploadWithHybrid]
            rw [if_neg hgt]
          rw [htr] at hmem
          exact standardChain_rclone_ok env [] u (by simp) hra hru hmem

/-- A 2 GiB archive whose whole large-file chain fails (no CLI on the
remote host, streaming resets) and whose local fallback works. -/
def envLargeAllFail : HybridEnv :=
  { large :=
      { probe := .ok 2147483648
        whichRclone := .ok ""
        rcloneLarge := .ok ()
        whichGdrive := .ok ""
        gdriveLarge := .ok ""
        optStream := .error "stream reset by peer" }
    rcloneAvailable := false
    rcloneUpload := .ok ()
    localFallback := .ok 2048 }

/-- C2 counterexample: on a 2 GiB file (above the 1 GiB threshold) whose
large-file chain has entirely failed, the resolver does fall through to
the standard chain and executes the local-fallback strategy - and here
returns its outcome - contradicting the claim that the local fallback
is never executed for large files under any configuration. -/
theorem hybrid_local_counterexample :
    1073741824 < probedSize envLargeAllFail.large.probe ∧
    Strategy.localFallback ∈ (uploadWithHybrid envLargeAllFail).2 ∧
    (uploadWithHybrid envLargeAllFail).1 =
      .ok { method := .localMethod, fileSize := 2048 } := by
  decide

/-- A 2 GiB archive whose large-file chain wins at its first strategy. -/
def envLargeOk : HybridEnv :=
  { large :=
      { probe := .ok 2147483648
        whichRclone := .ok "/usr/bin/rclone"
        rcloneLarge := .ok ()
        whichGdrive := .ok ""
        gdriveLarge := .ok ""
        optStream := .ok "unused" }
    rcloneAvailable := false
    rcloneUpload := .ok ()
    localFallback := .ok 7 }

/-- Closed instance of the amended C2 theorem: the successful large-file
run never touches the local fallback, and on the failing run the
executed local fallback certifies that the large-file chain had
failed. -/
theorem hybrid_large_chain_amended_witness :
    ((uploadWithHybrid envLargeOk).1 =
        .ok { method := .largeFileOptimized, fileSize := 2147483648 } ∧
      Strategy.localFallback ∉ (uploadWithHybrid envLargeOk).2) ∧
    ∃ e, (uploadLargeFile envLargeAllFail.large).1 = .error e :=
  ⟨(hybrid_large_chain_amended envLargeOk).2.1
      { method := .largeRclone, fileSize := 2147483648 } (by decide) (by decide),
    ((hybrid_large_chain_amended envLargeAllFail).2.2 (by decide)).1 (by decide)⟩

/-- A run whose size probe raises; rclone is unavailable and the local
fallback succeeds with a measured local size of 5 MiB. -/
def envProbeFails : HybridEnv :=
  { large :=
      { probe := .error "stat ENOENT"
        whichRclone := .ok "/usr/bin/rclone"
        rcloneLarge := .ok ()
        whichGdrive := .ok ""
        gdriveLarge := .ok ""
        optStream := .ok "unused" }
    rcloneAvailable := false
    rcloneUpload := .ok ()
    localFallback := .ok 5242880 }

/-- C10 counterexample: with the size probe failing, the file is treated
as 0 bytes and the large chain is skipped, but when the local fallback
then wins, the outcome reports the measured size of the local copy -
5242880 here, not 0 - so the claim that the reported fileSize is 0 in
this situation fails. -/
theorem hybrid_probe_counterexample :
    (uploadWithHybrid envProbeFails).1 =
      .ok { method := .localMethod, fileSize := 5242880 } ∧
    (5242880 : Nat) ≠ 0 := by
  decide

/-- C10 (amended): when the size probe raises, the resolver treats the
size as 0, so the file classifies below the large-file threshold and
the whole run is exactly the standard chain (the large chain is
silently skipped and only the rclone direct attempt or the local
fallback can execute); the probe error itself is never rethrown - the
only error the resolver can throw is the aggregated one quoting the
local fallback's failure; and an outcome won by the rclone strategy
reports fileSize 0 (its re-probe fails identically), while one won by
the local fallback reports the measured local copy size, which need
not be 0. -/
theorem hybrid_probe_error_amended (env : HybridEnv) (e : ErrMsg)
    (hp : env.large.probe = .error e) :
    probedSize env.large.probe = 0 ∧
    uploadWithHybrid env = hybridStandardChain env [] ∧
    (∀ s, s ∈ (uploadWithHybrid env).2 → s = .rcloneDirect ∨ s = .localFallback) ∧
    (∀ o, (uploadWithHybrid env).1 = .ok o → o.method = .rclone → o.fileSize = 0) ∧
    (∀ n, env.localFallback = .ok n → ∀ o, (uploadWithHybrid env).1 = .ok o →
      o.method = .localMethod → o.fileSize = n) ∧
    (∀ e2, (uploadWithHybrid env).1 = .error e2 →
      ∃ e3, env.localFallback = .error e3 ∧
        e2 = "All upload methods failed. Last error: " ++ e3) := by
  have hps : probedSize env.large.probe = 0 := by
    simp [probedSize, hp]
  have hskip : uploadWithHybrid env = hybridStandardChain env [] := by
    simp only [uploadWithHybrid, hps]
    rw [if_neg (by omega)]
  refine ⟨hps, hskip, ?_, ?_, ?_, ?_⟩ <;> rw [hskip]
  · intro s hs
    by_cases hra : env.rcloneAvailable = true
    · cases hru : env.rcloneUpload with
      | ok u =>
        simp [hybridStandardChain, hra, hru] at hs
        simp [hs]
      | error e2 =>
        cases hlf : env.localFallback with
        | ok n =>
          simp [hybridStandardChain, hra, hru, hlf] at hs
          rcases hs with h | h <;> simp [h]
        | error e3 =>
          simp [hybridStandardChain, hra, hru, hlf] at hs
          rcases hs with h | h <;> simp [h]
    · simp only [Bool.not_eq_true] at hra
      cases hlf : env.localFallback with
      | ok n =>
        simp [hybridStandardChain, hra, hlf] at hs
        simp [hs]
      | error e3 =>
        simp [hybridStandardChain, hra, hlf] at hs
        simp [hs]
  · intro o ho hm
    by_cases hra : env.rcloneAvailable = true
    · cases hru : env.rcloneUpload with
      | ok u =>
        simp [hybridStandardChain, hra, hru, hps] at ho
        rw [← ho]
      | error e2 =>
        cases hlf : env.localFallback with
        | ok n =>
          simp [hybridStandardChain, hra, hru, hlf] at ho
          rw [← ho] at hm
          simp at hm
        | error e3 =>
          simp [hybridStandardChain, hra, hru, hlf] at ho
    · simp only [Bool.not_eq_true] at hra
      cases hlf : env.localFallback with
      | ok n =>
        simp [hybridStandardChain, hra, hlf] at ho
        rw [← ho] at hm
        simp at hm
      | error e3 =>
        simp [hybridStandardChain, hra, hlf] at ho
  · intro n hn o ho hm
    by_cases hra : env.rcloneAvailable = true
    · cases hru : env.rcloneUpload with
      | ok u =>
        simp [hybridStandardChain, hra, hru, hps] at ho
        rw [← ho] at hm
        simp at hm
      | error e2 =>
        simp [hybridStandardChain, hra, hru, hn] at ho
        rw [← ho]
    · simp only [Bool.not_eq_true] at hra
      simp [hybridStandardChain, hra, hn] at ho
      rw [← ho]
  · intro e2 he2
    by_cases hra : env.rcloneAvailable = true
    · cases hru : env.rcloneUpload with
      | ok u => simp [hybridStandardChain, hra, hru] at he2
      | error e3 =>
        cases hlf : env.localFallback with
        | ok n => simp [hybridStandardChain, hra, hru, hlf] at he2
        | error e4 =>
          refine ⟨e4, rfl, ?_⟩
          simp [hybridStandardChain, hra, hru, hlf] at he2
          exact he2.symm
    · simp only [Bool.not_eq_true] at hra
      cases hlf : env.localFallback with
      | ok n => simp [hybridStandardChain, hra, hlf] at he2
      | error e4 =>
        refine ⟨e4, rfl, ?_⟩
        simp [hybridStandardChain, hra, hlf] at he2
        exact he2.symm

/-- Closed instance of the amended C10 theorem on the failing-probe run:
size treated as 0, large chain skipped, local outcome carrying the
measured local size. -/
theorem hybrid_probe_error_amended_witness :
    probedSize envProbeFails.large.probe = 0 ∧
    uploadWithHybrid envProbeFails = hybridStandardChain envProbeFails [] ∧
    (uploadWithHybrid envProbeFails).1.map (fun o => o.fileSize) = .ok 5242880 :=
  have h := hybrid_probe_error_amended envProbeFails "stat ENOENT" rfl
  ⟨h.1, h.2.1, by
    have := h.2.2.2.2.1 5242880 rfl
      { method := .localMethod, fileSize := 5242880 } (by decide) (by decide)
    decide⟩

end AutoBackup
